import Mathlib

/-!
A shallow embedding of the core of the `bqdrift` repository (Rust):
the DSL variable resolver (`src/dsl/resolver.rs`), the query loader
(`src/dsl/loader.rs`), the drift detector (`src/drift/detector.rs`) and the
execution orchestrator (`src/executor/runner.rs`,
`src/executor/invariant_runner.rs`), together with theorems checking the
natural-language specification against this embedding.

Modelling conventions:
- `chrono::NaiveDate` and timestamps are modelled as `Nat` (day index /
  instant index); only their order and successor structure is used.
- Rust `HashMap` built by repeated `insert` is modelled as an association
  list with new entries consed in front and lookup returning the first hit,
  which reproduces the insert-overwrites semantics observably.
- Fallible Rust functions returning `Result<T, BqDriftError>` are modelled
  as `Except BqDriftError T`.
Several files of the repository are declared by `mod`/`pub use` but are not
present under `src/` (`src/error.rs`, `src/drift/state.rs`,
`src/drift/checksum.rs`, `src/dsl/parser.rs`, `src/schema/*.rs`,
`src/invariant/*.rs`); the data declarations and small functions they hold
are modelled from the specification, each marked in its doc comment.
-/

namespace BqDrift

/-- Modelled from the spec: the error taxonomy of `src/error.rs` (not under
`src/`), with exactly the variants constructed by the code under `src/`:
`Partition`, `InvalidVersionRef`, `VariableResolution`, `Validation`,
`DslParse`, `InvariantFailed`, `QueryNotFound`, plus the warehouse-execution
kind the spec lists. Each carries its message string. -/
inductive BqDriftError where
  | Io (msg : String)
  | DslParse (msg : String)
  | InvalidVersionRef (msg : String)
  | VariableResolution (msg : String)
  | Validation (msg : String)
  | Partition (msg : String)
  | QueryNotFound (msg : String)
  | InvariantFailed (msg : String)
  | Execution (msg : String)
deriving DecidableEq, Repr

/-- Modelled from the spec: `Display` for `BqDriftError` (`src/error.rs` is
not under `src/`); an error renders as its message. Only used where the code
calls `e.to_string()`. -/
def BqDriftError.text : BqDriftError → String
  | .Io m => m
  | .DslParse m => m
  | .InvalidVersionRef m => m
  | .VariableResolution m => m
  | .Validation m => m
  | .Partition m => m
  | .QueryNotFound m => m
  | .InvariantFailed m => m
  | .Execution m => m

/-- Modelled from the spec: `Field` of `src/schema/field.rs` (not under
`src/`): "A field has `name`, `bq_type`, `mode` (required/nullable/repeated),
optional description." The resolver compares and replaces whole fields by
`name`. -/
structure Field where
  name : String
  bq_type : String
  mode : String
  description : Option String
deriving DecidableEq, Repr

/-- Modelled from the spec: `Schema` of `src/schema/table.rs` (not under
`src/`): an ordered list of `Field`s. -/
structure Schema where
  fields : List Field
deriving DecidableEq, Repr

/-- `Schema::from_fields` (declared in the missing `src/schema/table.rs`):
wraps the ordered field list. -/
def Schema.from_fields (fs : List Field) : Schema := ⟨fs⟩

/-- Modelled from the spec: `ExtendedSchema` of `src/dsl/parser.rs` (not
under `src/`), with the fields `src/dsl/resolver.rs` reads: `base` (a
reference string), `add`/`modify` (field lists) and `remove` (names). -/
structure ExtendedSchema where
  base : String
  add : List Field
  remove : List String
  modify : List Field
deriving DecidableEq, Repr

/-- Modelled from the spec: `SchemaRef` of `src/dsl/parser.rs` (not under
`src/`): "`schema` variants: inline field list, reference string, or
extended object". -/
inductive SchemaRef where
  | Inline (fields : List Field)
  | Reference (ref_str : String)
  | Extended (ext : ExtendedSchema)
deriving DecidableEq, Repr

/-- Modelled from the spec: `Severity` of `src/invariant/types.rs` (not
under `src/`): `severity ∈ {Error, Warning}`. -/
inductive Severity where
  | Error
  | Warning
deriving DecidableEq, Repr

/-- Modelled from the spec: `CheckStatus` of `src/invariant/result.rs` (not
under `src/`): `status ∈ {Passed, Failed, Skipped}`. -/
inductive CheckStatus where
  | Passed
  | Failed
  | Skipped
deriving DecidableEq, Repr

/-- Modelled from the spec: `InvariantCheck` of `src/invariant/types.rs`
(not under `src/`): "`check` (variant: row-count bounds, non-null column,
uniqueness, custom SQL predicate)". -/
inductive InvariantCheck where
  | rowCountBounds (min max : Option Nat)
  | nonNullColumn (column : String)
  | uniqueness (columns : List String)
  | customSql (sql : String)
deriving DecidableEq, Repr

/-- Modelled from the spec: `InvariantCheck::validate` (missing
`src/invariant/types.rs`): "required fields present per check kind". -/
def InvariantCheck.validate : InvariantCheck → Except String Unit
  | .rowCountBounds none none => .error "row count check requires a bound"
  | .rowCountBounds _ _ => .ok ()
  | .nonNullColumn c => if c = "" then .error "column is required" else .ok ()
  | .uniqueness cs => if cs = [] then .error "columns are required" else .ok ()
  | .customSql s => if s = "" then .error "sql is required" else .ok ()

/-- Modelled from the spec: `InvariantDef` of `src/invariant/types.rs` (not
under `src/`): "Each resolved invariant has `name`, `check`, `severity`,
optional description." The resolver compares and replaces whole entries by
`name`. -/
structure InvariantDef where
  name : String
  check : InvariantCheck
  severity : Severity
  description : Option String
deriving DecidableEq, Repr

/-- Modelled from the spec: `InvariantsDef` of `src/invariant/types.rs` (not
under `src/`): the declaration split into ordered `before` and `after`
lists. -/
structure InvariantsDef where
  before : List InvariantDef
  after : List InvariantDef
deriving DecidableEq, Repr

/-- `InvariantsDef::default()`: empty before/after lists. -/
def InvariantsDef.default : InvariantsDef := ⟨[], []⟩

/-- Modelled from the spec: `InvariantsRemove` of `src/invariant/types.rs`
(not under `src/`): names to drop from the before/after lists, as read by
`resolve_extended_invariants`. -/
structure InvariantsRemove where
  before : List String
  after : List String
deriving DecidableEq, Repr

/-- Modelled from the spec: `ExtendedInvariants` of `src/invariant/types.rs`
(not under `src/`), with the fields `src/dsl/resolver.rs` reads: `base` and
optional `add`/`remove`/`modify` deltas. -/
structure ExtendedInvariants where
  base : String
  add : Option InvariantsDef
  remove : Option InvariantsRemove
  modify : Option InvariantsDef
deriving DecidableEq, Repr

/-- Modelled from the spec: `InvariantsRef` of `src/invariant/types.rs` (not
under `src/`): inline, reference, or extended — mirroring `SchemaRef`. -/
inductive InvariantsRef where
  | Inline (d : InvariantsDef)
  | Reference (ref_str : String)
  | Extended (ext : ExtendedInvariants)
deriving DecidableEq, Repr

/-- `src/invariant/result.rs` (not under `src/`), modelled from the spec:
one check outcome with its `status` and the `severity` of the invariant it
came from; `src/executor/invariant_runner.rs` reads exactly those two
fields. -/
structure CheckResult where
  name : String
  status : CheckStatus
  severity : Severity
  message : Option String
deriving DecidableEq, Repr

/-- `InvariantReport` of `src/invariant/result.rs` (not under `src/`):
before/after check results, as constructed by `execute_with_invariants`. -/
structure InvariantReport where
  before : List CheckResult
  after : List CheckResult
deriving DecidableEq, Repr

/- ---------------------------------------------------------------------
The variable reference pattern of `src/dsl/resolver.rs`:
`\$\{\{\s*versions\.(\d+)\.(\w+)\s*\}\}` (ASCII classes; the declaration
files are ASCII).  `Regex::captures` returns the leftmost match; both
capture groups are character classes followed by characters outside the
class, so greedy matching coincides with maximal munch.
--------------------------------------------------------------------- -/

/-- `\w` of the variable pattern: letters, digits, underscore. -/
def isWordChar (c : Char) : Bool := c.isAlphanum || c = '_'

/-- Drop an expected literal character sequence, or fail. -/
def dropLit : List Char → List Char → Option (List Char)
  | [], cs => some cs
  | _ :: _, [] => none
  | l :: ls, c :: cs => if c = l then dropLit ls cs else none

/-- Try to match the variable pattern starting exactly at the head of the
character list; on success return the two capture groups (digits, word). -/
def matchVarAt (cs : List Char) : Option (String × String) :=
  match dropLit ['$', '{', '{'] cs with
  | none => none
  | some cs =>
    let cs := cs.dropWhile Char.isWhitespace
    match dropLit ['v', 'e', 'r', 's', 'i', 'o', 'n', 's', '.'] cs with
    | none => none
    | some cs =>
      let ds := cs.takeWhile Char.isDigit
      if ds.isEmpty then none
      else
        match dropLit ['.'] (cs.dropWhile Char.isDigit) with
        | none => none
        | some cs =>
          let ws := cs.takeWhile isWordChar
          if ws.isEmpty then none
          else
            let cs := (cs.dropWhile isWordChar).dropWhile Char.isWhitespace
            match dropLit ['}', '}'] cs with
            | none => none
            | some _ => some (ds.asString, ws.asString)

/-- Scan for the leftmost match of the variable pattern. -/
def findVar : List Char → Option (String × String)
  | [] => none
  | c :: cs =>
    match matchVarAt (c :: cs) with
    | some r => some r
    | none => findVar cs

/-- `VARIABLE_PATTERN.captures`: leftmost match of
`${{ versions.<digits>.<word> }}` in the string, returning the two capture
groups. -/
def varCaptures (s : String) : Option (String × String) := findVar s.data

/-- Digits-to-number; the capture group is `\d+` so only digits occur. -/
def digitsToNat (ds : List Char) : Nat :=
  ds.foldl (fun acc c => acc * 10 + (c.toNat - '0'.toNat)) 0

/-- Rust `str::parse::<u32>` on a capture-group string of digits: fails
(overflow) iff the value does not fit in 32 bits. -/
def parseU32 (s : String) : Option Nat :=
  let v := digitsToNat s.data
  if v < 2 ^ 32 then some v else none

/-- `VariableResolver::extract_version_ref` (`src/dsl/resolver.rs`): capture
the pattern, parse group 1 as `u32`; any failure is `InvalidVersionRef`
carrying the reference string. -/
def extract_version_ref (ref_str : String) : Except BqDriftError Nat :=
  match varCaptures ref_str with
  | none => .error (.InvalidVersionRef ref_str)
  | some (ds, _) =>
    match parseU32 ds with
    | none => .error (.InvalidVersionRef ref_str)
    | some v => .ok v

/-- `VariableResolver::extract_invariants_version_ref`
(`src/dsl/resolver.rs`): like `extract_version_ref` but the captured field
name must be `invariants`, else `VariableResolution`. -/
def extract_invariants_version_ref (ref_str : String) : Except BqDriftError Nat :=
  match varCaptures ref_str with
  | none => .error (.InvalidVersionRef ref_str)
  | some (ds, field) =>
    match parseU32 ds with
    | none => .error (.InvalidVersionRef ref_str)
    | some v =>
      if field ≠ "invariants" then
        .error (.VariableResolution ("Expected 'invariants' field, got '" ++ field ++ "'"))
      else
        .ok v

/-- Association-list stand-in for `HashMap<u32, A>` built by `insert`:
new entries shadow older ones. -/
def hmInsert {A : Type} (m : List (Nat × A)) (k : Nat) (v : A) : List (Nat × A) :=
  (k, v) :: m

/-- Lookup in the association-list `HashMap<u32, A>` model. -/
def hmLookup {A : Type} (m : List (Nat × A)) (k : Nat) : Option A :=
  (m.find? (fun e => e.1 = k)).map (fun e => e.2)

/-- One step of the `remove` loop of `resolve_extended_schema`:
`fields.retain(|f| &f.name != name)`. -/
def removeFieldsStep (fs : List Field) (name : String) : List Field :=
  fs.filter (fun f => f.name ≠ name)

/-- The `remove` loop of `resolve_extended_schema`: drop each listed name in
order. -/
def removeFields (fs : List Field) (names : List String) : List Field :=
  names.foldl removeFieldsStep fs

/-- One step of the `modify` loop of `resolve_extended_schema`:
`fields.iter_mut().find(|f| f.name == modified.name)` replaces the first
field with the matching name, if any. -/
def modifyFieldsStep : List Field → Field → List Field
  | [], _ => []
  | f :: fs, m => if f.name = m.name then m :: fs else f :: modifyFieldsStep fs m

/-- The `modify` loop of `resolve_extended_schema`: apply each replacement
in order. -/
def modifyFields (fs : List Field) (mods : List Field) : List Field :=
  mods.foldl modifyFieldsStep fs

/-- `VariableResolver::resolve_extended_schema` (`src/dsl/resolver.rs`):
resolve the base reference, then apply `remove`, then `modify`, then append
`add`. -/
def resolve_extended_schema (ext : ExtendedSchema) (resolved : List (Nat × Schema)) :
    Except BqDriftError Schema :=
  match extract_version_ref ext.base with
  | .error e => .error e
  | .ok base_version =>
    match hmLookup resolved base_version with
    | none =>
      .error (.InvalidVersionRef ("Base version " ++ toString base_version ++ " not found"))
    | some base_schema =>
      let fields := base_schema.fields
      let fields := removeFields fields ext.remove
      let fields := modifyFields fields ext.modify
      let fields := fields ++ ext.add
      .ok (Schema.from_fields fields)

/-- `VariableResolver::resolve_schema` (`src/dsl/resolver.rs`): inline is
used as-is; a reference looks up the already-resolved version and fails with
`InvalidVersionRef` when absent; extended delegates. -/
def resolve_schema (schema_ref : SchemaRef) (resolved : List (Nat × Schema)) :
    Except BqDriftError Schema :=
  match schema_ref with
  | .Inline fields => .ok (Schema.from_fields fields)
  | .Reference ref_str =>
    match extract_version_ref ref_str with
    | .error e => .error e
    | .ok version =>
      match hmLookup resolved version with
      | some s => .ok s
      | none =>
        .error (.InvalidVersionRef
          ("Version " ++ toString version ++ " not found or not yet resolved"))
  | .Extended ext => resolve_extended_schema ext resolved

/-- One step of the invariant `modify` loops: replace the first invariant
with the matching name, if any. -/
def modifyInvsStep : List InvariantDef → InvariantDef → List InvariantDef
  | [], _ => []
  | i :: is_, m => if i.name = m.name then m :: is_ else i :: modifyInvsStep is_ m

/-- The invariant `modify` loop over one phase list. -/
def modifyInvs (is_ : List InvariantDef) (mods : List InvariantDef) : List InvariantDef :=
  mods.foldl modifyInvsStep is_

/-- The invariant `remove` pass over one phase list:
`retain(|inv| !remove.contains(&inv.name))`. -/
def removeInvs (is_ : List InvariantDef) (names : List String) : List InvariantDef :=
  is_.filter (fun i => ¬ names.contains i.name)

/-- `VariableResolver::resolve_extended_invariants` (`src/dsl/resolver.rs`):
resolve the base reference, then apply the optional `remove`, `modify` and
`add` deltas, in that order, to both phase lists. -/
def resolve_extended_invariants (ext : ExtendedInvariants)
    (resolved : List (Nat × InvariantsDef)) : Except BqDriftError InvariantsDef :=
  match extract_invariants_version_ref ext.base with
  | .error e => .error e
  | .ok base_version =>
    match hmLookup resolved base_version with
    | none =>
      .error (.InvalidVersionRef
        ("Base invariants version " ++ toString base_version ++ " not found"))
    | some base =>
      let before := base.before
      let after := base.after
      let (before, after) :=
        match ext.remove with
        | some rm => (removeInvs before rm.before, removeInvs after rm.after)
        | none => (before, after)
      let (before, after) :=
        match ext.modify with
        | some md => (modifyInvs before md.before, modifyInvs after md.after)
        | none => (before, after)
      let (before, after) :=
        match ext.add with
        | some ad => (before ++ ad.before, after ++ ad.after)
        | none => (before, after)
      .ok ⟨before, after⟩

/-- `VariableResolver::validate_invariants_def` (`src/dsl/resolver.rs`):
each check of both phases must validate; the first failure aborts with
`Validation`. -/
def validate_invariants_def (d : InvariantsDef) : Except BqDriftError Unit :=
  match d.before.findSome? (fun inv =>
      match inv.check.validate with
      | .error msg => some ("Invariant '" ++ inv.name ++ "' (before): " ++ msg)
      | .ok _ => none) with
  | some msg => .error (.Validation msg)
  | none =>
    match d.after.findSome? (fun inv =>
        match inv.check.validate with
        | .error msg => some ("Invariant '" ++ inv.name ++ "' (after): " ++ msg)
        | .ok _ => none) with
    | some msg => .error (.Validation msg)
    | none => .ok ()

/-- `VariableResolver::resolve_invariants` (`src/dsl/resolver.rs`): `None`
defaults to empty; inline is used as-is; a reference looks up the resolved
version; extended delegates; the result is validated. -/
def resolve_invariants (inv_ref : Option InvariantsRef)
    (resolved : List (Nat × InvariantsDef)) : Except BqDriftError InvariantsDef :=
  let result : Except BqDriftError InvariantsDef :=
    match inv_ref with
    | none => .ok InvariantsDef.default
    | some (.Inline d) => .ok d
    | some (.Reference ref_str) =>
      match extract_invariants_version_ref ref_str with
      | .error e => .error e
      | .ok version =>
        match hmLookup resolved version with
        | some d => .ok d
        | none =>
          .error (.InvalidVersionRef
            ("Invariants for version " ++ toString version ++ " not found or not yet resolved"))
    | some (.Extended ext) => resolve_extended_invariants ext resolved
  match result with
  | .error e => .error e
  | .ok d =>
    match validate_invariants_def d with
    | .error e => .error e
    | .ok _ => .ok d

/-- Modelled from the spec: `PartitionType` of `src/schema/partition.rs`
(not under `src/`): hour/day/month/year/range partitioning. -/
inductive PartitionType where
  | hour
  | day
  | month
  | year
  | range
deriving DecidableEq, Repr

/-- Modelled from the spec: `PartitionConfig` of `src/schema/partition.rs`
(not under `src/`): the partition kind and its optional field name (read by
`field_name()` in the partition writer). -/
structure PartitionConfig where
  ptype : PartitionType
  field : Option String
deriving DecidableEq, Repr

/-- Modelled from the spec: `PartitionKey` of `src/schema/partition.rs` (not
under `src/`): "tagged variant: `Hour(datetime)`, `Day(date)`,
`Month{year,month}`, `Year(year)`, `Range(integer)`"; dates and datetimes as
`Nat` indices. -/
inductive PartitionKey where
  | hour (dt : Nat)
  | day (d : Nat)
  | month (year m : Nat)
  | year (y : Nat)
  | range (i : Int)
deriving DecidableEq, Repr

/-- Modelled from the spec: `ClusterConfig` of `src/schema/cluster.rs` (not
under `src/`): the ordered cluster field names. -/
structure ClusterConfig where
  fields : List String
deriving DecidableEq, Repr

/-- Modelled from the spec: `ClusterConfig::new` (missing
`src/schema/cluster.rs`); the spec states no failure condition for it, so it
is modelled as always succeeding. -/
def ClusterConfig.new (fs : List String) : Except BqDriftError ClusterConfig :=
  .ok ⟨fs⟩

/-- `Destination` of `src/dsl/parser.rs` (not under `src/`), modelled from
the spec: dataset, table, partition config and optional cluster fields. -/
structure Destination where
  dataset : String
  table : String
  partition : PartitionConfig
  cluster : Option (List String)
deriving DecidableEq, Repr

/-- `Revision` of `src/dsl/parser.rs` (not under `src/`), modelled from the
spec and from the fields `QueryLoader::resolve_revisions` reads: `revision`
number, `effective_from` date, `source` SQL, `reason`, `backfill_since`. -/
structure Revision where
  revision : Nat
  effective_from : Nat
  source : String
  reason : Option String
  backfill_since : Option Nat
deriving DecidableEq, Repr

/-- `ResolvedRevision` of `src/dsl/parser.rs` (not under `src/`), modelled
from the spec, with the fields `QueryLoader::resolve_revisions` writes. -/
structure ResolvedRevision where
  revision : Nat
  effective_from : Nat
  source : String
  sql_content : String
  reason : Option String
  backfill_since : Option Nat
  dependencies : List String
deriving DecidableEq, Repr

/-- `VersionDef` of `src/dsl/parser.rs` (not under `src/`), modelled from
the spec, with the fields `QueryLoader::resolve_query` writes. -/
structure VersionDef where
  version : Nat
  effective_from : Nat
  source : String
  sql_content : String
  revisions : List ResolvedRevision
  description : Option String
  backfill_since : Option Nat
  schema : Schema
  dependencies : List String
  invariants : InvariantsDef
deriving DecidableEq, Repr

/-- `RawVersionDef` of `src/dsl/parser.rs` (not under `src/`), modelled from
the fields `QueryLoader::resolve_query` reads. -/
structure RawVersionDef where
  version : Nat
  effective_from : Nat
  source : String
  schema : SchemaRef
  invariants : Option InvariantsRef
  description : Option String
  backfill_since : Option Nat
  revisions : List Revision
deriving DecidableEq, Repr

/-- `QueryDef` of `src/dsl/parser.rs` (not under `src/`), modelled from the
spec data model. -/
structure QueryDef where
  name : String
  destination : Destination
  description : Option String
  owner : Option String
  tags : List String
  versions : List VersionDef
  cluster : Option ClusterConfig
deriving DecidableEq, Repr

/-- `RawQueryDef` of `src/dsl/parser.rs` (not under `src/`), modelled from
the fields `QueryLoader::resolve_query` reads. -/
structure RawQueryDef where
  name : String
  destination : Destination
  description : Option String
  owner : Option String
  tags : List String
  versions : List RawVersionDef
deriving DecidableEq, Repr

/-- Modelled from the spec: `SqlDependencies::extract`
(`src/dsl/dependencies.rs`, not under `src/`): table references after
`FROM`/`JOIN` tokens, lowercased and de-duplicated. No theorem depends on
its specifics; it only feeds the `dependencies` field. -/
def extract_dependencies (sql : String) : List String :=
  let toks := (sql.split Char.isWhitespace).filter (fun t => t ≠ "")
  let rec go : List String → List String → List String
    | acc, t1 :: t2 :: rest =>
      if t1.toLower = "from" ∨ t1.toLower = "join" then
        let tbl := t2.toLower
        go (if acc.contains tbl then acc else acc ++ [tbl]) (t2 :: rest)
      else go acc (t2 :: rest)
    | acc, _ => acc
  go [] toks

/-- `QueryLoader::resolve_revisions` (`src/dsl/loader.rs`): map each raw
revision to a resolved one, extracting dependencies; never fails. -/
def resolve_revisions (revisions : List Revision) :
    Except BqDriftError (List ResolvedRevision) :=
  .ok (revisions.map (fun rev =>
    { revision := rev.revision
      effective_from := rev.effective_from
      source := "<inline>"
      sql_content := rev.source
      reason := rev.reason
      backfill_since := rev.backfill_since
      dependencies := extract_dependencies rev.source }))

/-- The comparator of `raw.versions.sort_by` in `QueryLoader::resolve_query`
(`src/dsl/loader.rs`): ascending `(effective_from, version)` lexicographic
order. -/
def versionOrderLE (a b : RawVersionDef) : Bool :=
  a.effective_from < b.effective_from ∨
    (a.effective_from = b.effective_from ∧ a.version ≤ b.version)

/-- `raw.versions.sort_by(...)` (`src/dsl/loader.rs`): Rust's stable sort,
modelled by the stable `List.mergeSort`. -/
def sortVersions (vs : List RawVersionDef) : List RawVersionDef :=
  vs.mergeSort versionOrderLE

/-- The body of the version loop of `QueryLoader::resolve_query`
(`src/dsl/loader.rs`), folded over the sorted raw versions: resolve the
schema, extract dependencies, resolve revisions, resolve the invariants,
record both resolutions under the raw version number, and append the
resolved `VersionDef`. Any failure aborts the fold. -/
def resolveVersionsFold : List RawVersionDef → List (Nat × Schema) →
    List (Nat × InvariantsDef) → List VersionDef → Except BqDriftError (List VersionDef)
  | [], _, _, acc => .ok acc
  | rv :: rest, resolved_schemas, resolved_invariants, acc =>
    match resolve_schema rv.schema resolved_schemas with
    | .error e => .error e
    | .ok schema =>
      let dependencies := extract_dependencies rv.source
      let sql_content := rv.source
      match resolve_revisions rv.revisions with
      | .error e => .error e
      | .ok revisions =>
        match resolve_invariants rv.invariants resolved_invariants with
        | .error e => .error e
        | .ok invariants =>
          resolveVersionsFold rest
            (hmInsert resolved_schemas rv.version schema)
            (hmInsert resolved_invariants rv.version invariants)
            (acc ++ [{ version := rv.version
                       effective_from := rv.effective_from
                       source := "<inline>"
                       sql_content := sql_content
                       revisions := revisions
                       description := rv.description
                       backfill_since := rv.backfill_since
                       schema := schema
                       dependencies := dependencies
                       invariants := invariants }])

/-- `QueryLoader::resolve_query` (`src/dsl/loader.rs`): sort the raw
versions ascending by `(effective_from, version)`, resolve them in that
order, then build the cluster config and the `QueryDef`. -/
def resolve_query (raw : RawQueryDef) : Except BqDriftError QueryDef :=
  match resolveVersionsFold (sortVersions raw.versions) [] [] [] with
  | .error e => .error e
  | .ok versions =>
    let cluster : Except BqDriftError (Option ClusterConfig) :=
      match raw.destination.cluster with
      | some fields => (ClusterConfig.new fields).map some
      | none => .ok none
    match cluster with
    | .error e => .error e
    | .ok cluster =>
      .ok { name := raw.name
            destination := raw.destination
            description := raw.description
            owner := raw.owner
            tags := raw.tags
            versions := versions
            cluster := cluster }

/-- Modelled from the spec: `ExecutionStatus` of `src/drift/state.rs` (not
under `src/`): `status ∈ {Success, Failed}`. -/
inductive ExecutionStatus where
  | Success
  | Failed
deriving DecidableEq, Repr

/-- Modelled from the spec: `DriftState` of `src/drift/state.rs` (not under
`src/`): the seven classification states. -/
inductive DriftState where
  | NeverRun
  | Current
  | SqlChanged
  | SchemaChanged
  | VersionUpgraded
  | UpstreamChanged
  | Failed
deriving DecidableEq, Repr

/-- Modelled from the spec: `DriftState::needs_rerun` (missing
`src/drift/state.rs`): "true for all but `Current`". -/
def DriftState.needs_rerun : DriftState → Bool
  | .Current => false
  | _ => true

/-- Modelled from the spec: `PartitionState` of `src/drift/state.rs` (not
under `src/`): one persisted execution row, with the fields the detector
reads plus the execution metrics. -/
structure PartitionState where
  query_name : String
  partition_date : Nat
  version : Nat
  sql_revision : Option Nat
  effective_from : Nat
  sql_checksum : String
  schema_checksum : String
  yaml_checksum : String
  executed_sql_b64 : Option String
  upstream_states : List (String × Nat)
  executed_at : Nat
  execution_time_ms : Option Nat
  rows_written : Option Nat
  bytes_processed : Option Nat
  status : ExecutionStatus
deriving DecidableEq, Repr

/-- `Checksums` of `src/drift/checksum.rs` (not under `src/`), modelled from
the spec: the three independent 16-hex-char digests, as opaque strings. -/
structure Checksums where
  sql : String
  schema : String
  yaml : String
deriving DecidableEq, Repr

/-- `PartitionDrift` of `src/drift/state.rs` (not under `src/`), modelled
from the spec, with the fields `detect_partition_cached` writes. -/
structure PartitionDrift where
  query_name : String
  partition_key : PartitionKey
  state : DriftState
  current_version : Nat
  executed_version : Option Nat
  caused_by : Option String
  executed_sql_b64 : Option String
  current_sql : Option String
deriving DecidableEq, Repr

/-- Modelled from the spec: `QueryDef::get_version_for_date` (missing
`src/dsl/parser.rs`): "the greatest version whose `effective_from ≤ date`,
or `None` if date precedes all versions"; `versions` is kept sorted
ascending, so this is the last qualifying entry. -/
def get_version_for_date (q : QueryDef) (d : Nat) : Option VersionDef :=
  (q.versions.filter (fun v => v.effective_from ≤ d)).getLast?

/-- Modelled from the spec: `VersionDef::get_sql_for_date` (missing
`src/dsl/parser.rs`): "the SQL of the greatest revision with
`effective_from ≤ D`, falling back to V's base SQL"; `revisions` is kept
sorted ascending. -/
def get_sql_for_date (v : VersionDef) (d : Nat) : String :=
  match (v.revisions.filter (fun r => r.effective_from ≤ d)).getLast? with
  | some r => r.sql_content
  | none => v.sql_content

/-- `DriftDetector::detect_partition_cached` (`src/drift/detector.rs`).
`from_version` stands for
`|v| Checksums::from_version(v, yaml_content, today)` — `Checksums` lives in
the missing `src/drift/checksum.rs` and the spec constrains the digests only
to be deterministic functions of their inputs, so the digest function is a
parameter. The per-query memo cache keyed by `v.version`
(`checksum_cache.entry(v.version).or_insert_with(...)`) always yields
`from_version v` because version numbers are unique within a query, so the
cache is dropped from the model. `today` stands for
`chrono::Utc::now().date_naive()`. -/
def detect_partition_cached (from_version : VersionDef → Checksums) (today : Nat)
    (query_name : String) (query : QueryDef) (partition_date : Nat)
    (stored : Option PartitionState) : PartitionDrift :=
  let version := get_version_for_date query partition_date
  let svc : DriftState × Option Nat × Option String :=
    match version, stored with
    | none, _ => (DriftState.NeverRun, none, none)
    | some _, none => (DriftState.NeverRun, none, none)
    | some v, some st =>
      if st.status = ExecutionStatus.Failed then
        (DriftState.Failed, some st.version, none)
      else
        let current_checksums := from_version v
        if current_checksums.schema ≠ st.schema_checksum then
          (DriftState.SchemaChanged, some st.version, none)
        else if current_checksums.sql ≠ st.sql_checksum then
          (DriftState.SqlChanged, some st.version, none)
        else if v.version ≠ st.version then
          (DriftState.VersionUpgraded, some st.version, none)
        else
          (DriftState.Current, some st.version, none)
  let executed_sql_b64 := stored.bind (fun s => s.executed_sql_b64)
  let current_sql :=
    if svc.1.needs_rerun then version.map (fun v => get_sql_for_date v today)
    else none
  { query_name := query_name
    partition_key := PartitionKey.day partition_date
    state := svc.1
    current_version := (version.map (fun v => v.version)).getD 0
    executed_version := svc.2.1
    caused_by := svc.2.2
    executed_sql_b64 := executed_sql_b64
    current_sql := current_sql }

/-- The `stored_map` of `DriftDetector::detect` (`src/drift/detector.rs`
lines 42-45): `HashMap` collected from
`((query_name, partition_date), state)` pairs in input order — a later
duplicate key overwrites an earlier one. Modelled as front-consed entries. -/
def storedMapEntries (states : List PartitionState) :
    List ((String × Nat) × PartitionState) :=
  states.foldl (fun m s => ((s.query_name, s.partition_date), s) :: m) []

/-- `stored_map.get(&(query_name, current))` in the detect loop. -/
def storedMapGet (states : List PartitionState) (key : String × Nat) :
    Option PartitionState :=
  ((storedMapEntries states).find? (fun e => e.1 = key)).map (fun e => e.2)

/-- One iteration of the detect loop (`src/drift/detector.rs` lines 61-69):
classify `(query_name, date)` against the stored row supplied by
`stored_map`. -/
def detect_partition_for (from_version : VersionDef → Checksums) (today : Nat)
    (states : List PartitionState) (query_name : String) (query : QueryDef)
    (partition_date : Nat) : PartitionDrift :=
  detect_partition_cached from_version today query_name query partition_date
    (storedMapGet states (query_name, partition_date))

/-- `DriftDetector::build_state_index` (`src/drift/detector.rs`): index the
states by `(query_name, partition_date)`, keeping the row with the greatest
`executed_at` (an existing row with `executed_at` ≥ the new one is kept). -/
def buildStateIndex (all_states : List PartitionState) :
    List ((String × Nat) × PartitionState) :=
  all_states.foldl (fun index state =>
    let key := (state.query_name, state.partition_date)
    match (index.find? (fun e => e.1 = key)).map (fun e => e.2) with
    | some existing =>
      if existing.executed_at ≥ state.executed_at then index
      else (key, state) :: index
    | none => (key, state) :: index) []

/-- Lookup in the `build_state_index` result. -/
def stateIndexGet (index : List ((String × Nat) × PartitionState))
    (key : String × Nat) : Option PartitionState :=
  (index.find? (fun e => e.1 = key)).map (fun e => e.2)

/-- The last stored row in input order for a key — what `HashMap` insertion
overwriting actually keeps. -/
def lastStoredFor (states : List PartitionState) (key : String × Nat) :
    Option PartitionState :=
  states.reverse.find? (fun s => (s.query_name, s.partition_date) = key)

/-- Modelled from the spec: `resolve_invariants_def`
(`src/invariant/checker.rs`, not under `src/`): "splits the declaration into
two ordered lists with variables already resolved upstream". The resolved
check type is modelled as `InvariantDef` itself. -/
def resolve_invariants_def (d : InvariantsDef) :
    List InvariantDef × List InvariantDef :=
  (d.before, d.after)

/-- Observable execution steps of `execute_with_invariants`
(`src/executor/invariant_runner.rs`): invoking the invariant checker on the
before list, invoking the partition SQL body (`execute_fn`), and invoking
the checker on the after list. -/
inductive ExecEvent where
  | beforeChecks
  | body
  | afterChecks
deriving DecidableEq, Repr

/-- `run_before_checks` (`src/executor/invariant_runner.rs`): an empty check
list returns no results without touching the warehouse; otherwise the
checker runs (`checker_outcome` stands for `checker.run_checks`, a warehouse
call), its error propagates, and a result with `status=Failed` and
`severity=Error` aborts with `InvariantFailed`. The second component
records whether the checker ran. -/
def run_before_checks (before_checks : List InvariantDef)
    (checker_outcome : Except BqDriftError (List CheckResult)) :
    Except BqDriftError (List CheckResult) × List ExecEvent :=
  if before_checks.isEmpty then (.ok [], [])
  else
    match checker_outcome with
    | .error e => (.error e, [.beforeChecks])
    | .ok results =>
      if results.any (fun r => r.status = CheckStatus.Failed ∧ r.severity = Severity.Error) then
        (.error (.InvariantFailed "Before invariant check(s) failed with error severity"),
          [.beforeChecks])
      else (.ok results, [.beforeChecks])

/-- `run_after_checks` (`src/executor/invariant_runner.rs`): an empty check
list returns no results without touching the warehouse; otherwise the
checker's outcome is returned as is. -/
def run_after_checks (after_checks : List InvariantDef)
    (checker_outcome : Except BqDriftError (List CheckResult)) :
    Except BqDriftError (List CheckResult) × List ExecEvent :=
  if after_checks.isEmpty then (.ok [], [])
  else
    match checker_outcome with
    | .error e => (.error e, [.afterChecks])
    | .ok results => (.ok results, [.afterChecks])

/-- `execute_with_invariants` (`src/executor/invariant_runner.rs`). The
warehouse-dependent outcomes are parameters: `before_outcome` and
`after_outcome` stand for `checker.run_checks` on the respective lists and
`body_outcome` for `execute_fn()`. Returns the function's result together
with the ordered trace of execution steps taken. -/
def execute_with_invariants (run_invariants : Bool) (invariants : InvariantsDef)
    (before_outcome : Except BqDriftError (List CheckResult))
    (body_outcome : Except BqDriftError Unit)
    (after_outcome : Except BqDriftError (List CheckResult)) :
    Except BqDriftError (Option InvariantReport) × List ExecEvent :=
  if ¬ run_invariants then
    match body_outcome with
    | .error e => (.error e, [.body])
    | .ok _ => (.ok none, [.body])
  else
    let (before_checks, after_checks) := resolve_invariants_def invariants
    let (br, ev1) := run_before_checks before_checks before_outcome
    match br with
    | .error e => (.error e, ev1)
    | .ok before_results =>
      match body_outcome with
      | .error e => (.error e, ev1 ++ [.body])
      | .ok _ =>
        let (ar, ev2) := run_after_checks after_checks after_outcome
        match ar with
        | .error e => (.error e, ev1 ++ [.body] ++ ev2)
        | .ok after_results =>
          (.ok (some ⟨before_results, after_results⟩), ev1 ++ [.body] ++ ev2)

/-- `PartitionWriteStats` (`src/executor/partition_writer.rs`). -/
structure PartitionWriteStats where
  query_name : String
  version : Nat
  partition_key : PartitionKey
  invariant_report : Option InvariantReport
deriving DecidableEq, Repr

/-- `RunFailure` (`src/executor/runner.rs`): one captured per-partition
error. -/
structure RunFailure where
  query_name : String
  partition_key : PartitionKey
  error : String
deriving DecidableEq, Repr

/-- `RunReport` (`src/executor/runner.rs`). -/
structure RunReport where
  stats : List PartitionWriteStats
  failures : List RunFailure
deriving DecidableEq, Repr

/-- Rust `str::parse::<usize>`: an optional leading `+`, then at least one
ASCII digit and nothing else; values not fitting 64 bits overflow. -/
def parse_usize (s : String) : Option Nat :=
  let cs := s.data
  let cs := match cs with
    | '+' :: rest => rest
    | other => other
  if cs ≠ [] ∧ cs.all Char.isDigit then
    let v := digitsToNat cs
    if v < 2 ^ 64 then some v else none
  else none

/-- `default_parallelism` (`src/executor/runner.rs`): read
`BQDRIFT_PARALLELISM` (`env` is its value, `none` when unset or unreadable);
an unparseable value falls back to 5; a parsed value is used as is. -/
def default_parallelism (env : Option String) : Nat :=
  match env with
  | none => 5
  | some s => (parse_usize s).getD 5

/-- `Runner::with_parallelism` (`src/executor/runner.rs`):
`parallelism.max(1)`. -/
def with_parallelism (parallelism : Nat) : Nat :=
  max parallelism 1

/-- `Runner::get_query` via the `query_index` `HashMap` built in input order
(`src/executor/runner.rs`): a duplicated name keeps the last query with that
name. -/
def get_query (queries : List QueryDef) (name : String) : Option QueryDef :=
  queries.reverse.find? (fun q => q.name = name)

/-- The partition enumeration loop of `Runner::backfill_partitions`
(`src/executor/runner.rs`): `while current <= to { push(current); current =
next }`, with `next_by(stride)`/`next()` modelled for day partitions (the
missing `src/schema/partition.rs` is modelled from the spec: `Day.next` is
the next day, `next_by(i)` steps `i` days). Modelled for positive strides,
the terminating case of the Rust loop. -/
def enumerate_day_partitions (step : Nat) (hstep : 0 < step) (current toDay : Nat) :
    List Nat :=
  if current ≤ toDay then
    current :: enumerate_day_partitions step hstep (current + step) toDay
  else []
termination_by toDay + 1 - current
decreasing_by omega

/-- The dispatch-and-collect phase of `Runner::backfill_partitions`
(`src/executor/runner.rs`): each partition is written (`write` stands for
`self.writer.write_partition(query, pk)`, a warehouse call); a success is
pushed onto `stats`, an error becomes a `RunFailure` carrying the partition
key and `e.to_string()`. The real stream collects in completion order;
only the multiset of outcomes is observable. -/
def runPartitionStep (write : PartitionKey → Except BqDriftError PartitionWriteStats)
    (query_name : String) (report : RunReport) (d : Nat) : RunReport :=
  match write (PartitionKey.day d) with
  | .ok s => { report with stats := report.stats ++ [s] }
  | .error e =>
    { report with failures :=
        report.failures ++ [⟨query_name, PartitionKey.day d, e.text⟩] }

/-- The collection loop of `Runner::backfill_partitions`: fold
`runPartitionStep` over the enumerated partitions starting from the empty
report. -/
def run_partitions (write : PartitionKey → Except BqDriftError PartitionWriteStats)
    (query_name : String) (partitions : List Nat) : RunReport :=
  partitions.foldl (runPartitionStep write query_name) ⟨[], []⟩

/-- `Runner::backfill_partitions` (`src/executor/runner.rs`) for day
partitions: an unknown query name is `QueryNotFound`; otherwise the
enumerated partitions are dispatched and the report is always `Ok`. -/
def backfill_partitions (queries : List QueryDef)
    (write : PartitionKey → Except BqDriftError PartitionWriteStats)
    (query_name : String) (fromDay toDay : Nat) (step : Nat) (hstep : 0 < step) :
    Except BqDriftError RunReport :=
  match get_query queries query_name with
  | none => .error (.QueryNotFound query_name)
  | some _ =>
    .ok (run_partitions write query_name (enumerate_day_partitions step hstep fromDay toDay))

/-- Decidable equality of `Except` outcomes, so concrete runs can be checked
by `decide`. -/
instance {ε α : Type} [DecidableEq ε] [DecidableEq α] : DecidableEq (Except ε α) := fun x y =>
  match x, y with
  | .ok a, .ok b =>
    match decEq a b with
    | isTrue h => isTrue (h ▸ rfl)
    | isFalse h => isFalse (fun he => h (Except.ok.inj he))
  | .error a, .error b =>
    match decEq a b with
    | isTrue h => isTrue (h ▸ rfl)
    | isFalse h => isFalse (fun he => h (Except.error.inj he))
  | .ok _, .error _ => isFalse (fun he => Except.noConfusion he)
  | .error _, .ok _ => isFalse (fun he => Except.noConfusion he)

/- ---------------------------------------------------------------------
Concrete instances, used by witnesses and counterexamples.
--------------------------------------------------------------------- -/

/-- A fixed digest function: every version hashes to the same triple. -/
def fxFv : VersionDef → Checksums := fun _ => ⟨"sqlA", "schA", "yamlA"⟩

/-- A nullable STRING field with the given name. -/
def fxField (n : String) : Field := ⟨n, "STRING", "NULLABLE", none⟩

/-- Day partitioning on a `date` column. -/
def fxPartitionConfig : PartitionConfig := ⟨PartitionType.day, some "date"⟩

/-- A destination table. -/
def fxDestination : Destination := ⟨"ds", "tbl", fxPartitionConfig, none⟩

/-- One resolved version: version 1, effective from day 10. -/
def fxVersion : VersionDef :=
  ⟨1, 10, "<inline>", "SELECT * FROM source", [], none, none, ⟨[]⟩, ["source"],
    InvariantsDef.default⟩

/-- A query with the single version `fxVersion`. -/
def fxQuery : QueryDef := ⟨"q", fxDestination, none, none, [], [fxVersion], none⟩

/-- A stored partition state matching `fxFv`'s digests of `fxVersion` for
day 15, executed at instant 100, with status Success. -/
def fxState : PartitionState :=
  ⟨"q", 15, 1, none, 10, "sqlA", "schA", "yamlA", some "H4sI", [], 100, some 5,
    some 10, some 20, ExecutionStatus.Success⟩

/-- `fxState` with a diverging schema checksum. -/
def fxStateSchema : PartitionState := { fxState with schema_checksum := "other" }

/-- `fxState` marked Failed. -/
def fxStateFailed : PartitionState := { fxState with status := ExecutionStatus.Failed }

/-- A Failed stored row for day 5, which precedes `fxVersion`'s
`effective_from`. -/
def fxStateEarlyFailed : PartitionState :=
  { fxState with partition_date := 5, status := ExecutionStatus.Failed }

/-- Duplicate-key fixture: the earlier-input row, executed at 100,
Success. -/
def fxDup1 : PartitionState := fxState

/-- Duplicate-key fixture: the later-input row, executed at only 50,
Failed. -/
def fxDup2 : PartitionState :=
  { fxState with executed_at := 50, status := ExecutionStatus.Failed }

/-- An invariant with Error severity. -/
def fxInvBefore : InvariantDef := ⟨"b", .customSql "SELECT 1", .Error, none⟩

/-- An after-phase invariant. -/
def fxInvAfter : InvariantDef := ⟨"a", .customSql "SELECT 2", .Warning, none⟩

/-- An invariants declaration with one before- and one after-check. -/
def fxInvariants : InvariantsDef := ⟨[fxInvBefore], [fxInvAfter]⟩

/-- A passing before-check result. -/
def fxPass : CheckResult := ⟨"b", .Passed, .Error, none⟩

/-- A failing Error-severity before-check result. -/
def fxFailErr : CheckResult := ⟨"b", .Failed, .Error, none⟩

/-- A writer outcome: day 1 fails with a warehouse error, all other
partitions succeed. -/
def fxWrite : PartitionKey → Except BqDriftError PartitionWriteStats :=
  fun pk =>
    if pk = PartitionKey.day 1 then .error (.Execution "boom")
    else .ok ⟨"q", 1, pk, none⟩

/-- An extended schema over version 1: remove `a`, add `c`. -/
def fxExt : ExtendedSchema :=
  ⟨"${{ versions.1.schema }}", [fxField "c"], ["a"], []⟩

/-- The resolved-schema map holding version 1 = `{a, b}`. -/
def fxResolved : List (Nat × Schema) := [(1, ⟨[fxField "a", fxField "b"]⟩)]

/-- An extended invariants delta over version 1 with no changes. -/
def fxExtInv : ExtendedInvariants := ⟨"${{ versions.1.invariants }}", none, none, none⟩

/-- The resolved-invariants map holding version 1. -/
def fxResolvedInv : List (Nat × InvariantsDef) := [(1, fxInvariants)]

/-- A raw version whose schema is a forward reference to version 3. -/
def fxRawFwd : RawVersionDef :=
  ⟨2, 10, "SELECT 1", SchemaRef.Reference "${{ versions.3.schema }}", none, none, none, []⟩

/-- A raw query consisting only of the forward-referencing version. -/
def fxRawQueryFwd : RawQueryDef := ⟨"q", fxDestination, none, none, [], [fxRawFwd]⟩

/- ---------------------------------------------------------------------
Helper lemmas, shared between claims.
--------------------------------------------------------------------- -/

/-- The `stored_map` entry list is the reversed input mapped to keyed
pairs. -/
theorem storedMapEntries_eq (states : List PartitionState) :
    storedMapEntries states =
      states.reverse.map (fun s => ((s.query_name, s.partition_date), s)) := by
  have h : ∀ (l : List PartitionState) (init : List ((String × Nat) × PartitionState)),
      l.foldl (fun m s => ((s.query_name, s.partition_date), s) :: m) init =
        l.reverse.map (fun s => ((s.query_name, s.partition_date), s)) ++ init := by
    intro l
    induction l with
    | nil => intro init; simp
    | cons x xs ih => intro init; simp [ih]
  simpa [storedMapEntries] using h states []

/-- Sequential removal of field names equals a single filter against the
whole name list. -/
theorem removeFields_eq_filter (names : List String) :
    ∀ fs : List Field,
      removeFields fs names = fs.filter (fun f => ¬ names.contains f.name) := by
  induction names with
  | nil => intro fs; simp [removeFields, List.filter_eq_self]
  | cons n rest ih =>
    intro fs
    have h1 : removeFields fs (n :: rest) = removeFields (removeFieldsStep fs n) rest := by
      simp [removeFields]
    rw [h1, ih, removeFieldsStep, List.filter_filter]
    apply List.filter_congr
    intro f _
    by_cases hn : f.name = n <;> simp [hn]

/-- Failures already collected are preserved by the partition fold. -/
theorem runPartitions_mono (write : PartitionKey → Except BqDriftError PartitionWriteStats)
    (qn : String) :
    ∀ (ps : List Nat) (init : RunReport) (f : RunFailure), f ∈ init.failures →
      f ∈ (ps.foldl (runPartitionStep write qn) init).failures := by
  intro ps
  induction ps with
  | nil => intro init f hf; simpa using hf
  | cons d ds ih =>
    intro init f hf
    simp only [List.foldl_cons]
    apply ih
    cases hw : write (PartitionKey.day d) <;> simp [runPartitionStep, hw, hf]

/-- The partition fold adds exactly one outcome per partition. -/
theorem runPartitions_len (write : PartitionKey → Except BqDriftError PartitionWriteStats)
    (qn : String) :
    ∀ (ps : List Nat) (init : RunReport),
      (ps.foldl (runPartitionStep write qn) init).stats.length +
        (ps.foldl (runPartitionStep write qn) init).failures.length =
      init.stats.length + init.failures.length + ps.length := by
  intro ps
  induction ps with
  | nil => intro init; simp
  | cons d ds ih =>
    intro init
    simp only [List.foldl_cons]
    rw [ih]
    cases hw : write (PartitionKey.day d) <;> simp [runPartitionStep, hw] <;> omega

/-- A failing write of an enumerated partition yields its `RunFailure`
entry in the final report. -/
theorem runPartitions_mem (write : PartitionKey → Except BqDriftError PartitionWriteStats)
    (qn : String) :
    ∀ (ps : List Nat) (init : RunReport) (d : Nat) (e : BqDriftError), d ∈ ps →
      write (PartitionKey.day d) = .error e →
      (⟨qn, PartitionKey.day d, e.text⟩ : RunFailure) ∈
        (ps.foldl (runPartitionStep write qn) init).failures := by
  intro ps
  induction ps with
  | nil => intro init d e hd; cases hd
  | cons p ds ih =>
    intro init d e hd hw
    simp only [List.foldl_cons]
    rcases List.mem_cons.mp hd with h | h
    · subst h
      apply runPartitions_mono
      simp [runPartitionStep, hw]
    · exact ih _ d e h hw

/- ---------------------------------------------------------------------
The claims.
--------------------------------------------------------------------- -/

/-- C1: for every (query, date) pair where an effective version exists and a
stored state with status Success is present, `detect` classifies by this
precedence: `SchemaChanged` if the schema checksums differ; otherwise
`SqlChanged` if the sql checksums differ; otherwise `VersionUpgraded` if the
current version number differs from the stored one; otherwise, when all
checksums agree and the versions agree, `Current`. -/
theorem C1_success_classification (fv : VersionDef → Checksums) (today : Nat)
    (qn : String) (q : QueryDef) (d : Nat) (st : PartitionState) (v : VersionDef)
    (hv : get_version_for_date q d = some v)
    (hs : st.status = ExecutionStatus.Success) :
    ((fv v).schema ≠ st.schema_checksum →
      (detect_partition_cached fv today qn q d (some st)).state = DriftState.SchemaChanged) ∧
    ((fv v).schema = st.schema_checksum → (fv v).sql ≠ st.sql_checksum →
      (detect_partition_cached fv today qn q d (some st)).state = DriftState.SqlChanged) ∧
    ((fv v).schema = st.schema_checksum → (fv v).sql = st.sql_checksum →
      v.version ≠ st.version →
      (detect_partition_cached fv today qn q d (some st)).state = DriftState.VersionUpgraded) ∧
    ((fv v).schema = st.schema_checksum → (fv v).sql = st.sql_checksum →
      (fv v).yaml = st.yaml_checksum → v.version = st.version →
      (detect_partition_cached fv today qn q d (some st)).state = DriftState.Current) := by
  refine ⟨?_, ?_, ?_, ?_⟩ <;> intros <;> simp_all [detect_partition_cached, hv]

/-- Witness for C1: a diverging schema checksum on a Success row classifies
as `SchemaChanged`. -/
theorem C1_success_classification_witness :
    (detect_partition_cached fxFv 0 "q" fxQuery 15 (some fxStateSchema)).state =
      DriftState.SchemaChanged :=
  (C1_success_classification fxFv 0 "q" fxQuery 15 fxStateSchema fxVersion
    (by decide) (by decide)).1 (by decide)

/-- Counterexample to C2 as stated: a stored Failed row for a date that
precedes every version (no effective version exists) is classified
`NeverRun`, not `Failed`. -/
theorem C2_counterexample :
    storedMapGet [fxStateEarlyFailed] ("q", 5) = some fxStateEarlyFailed ∧
    fxStateEarlyFailed.status = ExecutionStatus.Failed ∧
    (detect_partition_for fxFv 0 [fxStateEarlyFailed] "q" fxQuery 5).state =
      DriftState.NeverRun ∧
    DriftState.NeverRun ≠ DriftState.Failed := by
  decide

/-- C2 (amended): when an effective version exists for the stored row's
date, a stored status of Failed yields state `Failed`, regardless of
checksums and version numbers. -/
theorem C2_failed_propagates (fv : VersionDef → Checksums) (today : Nat)
    (qn : String) (q : QueryDef) (d : Nat) (st : PartitionState) (v : VersionDef)
    (hv : get_version_for_date q d = some v)
    (hf : st.status = ExecutionStatus.Failed) :
    (detect_partition_cached fv today qn q d (some st)).state = DriftState.Failed := by
  simp [detect_partition_cached, hv, hf]

/-- Witness for the amended C2: a Failed row under an existing version. -/
theorem C2_failed_propagates_witness :
    (detect_partition_cached fxFv 0 "q" fxQuery 15 (some fxStateFailed)).state =
      DriftState.Failed :=
  C2_failed_propagates fxFv 0 "q" fxQuery 15 fxStateFailed fxVersion (by decide) (by decide)

/-- C3: the output partition has `current_sql` populated iff its state needs
a rerun and a version exists, and `executed_sql_b64` always equals the
stored state's `executed_sql_b64` (`none` when there is no stored state),
for every drift state. -/
theorem C3_sql_fields (fv : VersionDef → Checksums) (today : Nat)
    (qn : String) (q : QueryDef) (d : Nat) (stored : Option PartitionState) :
    ((detect_partition_cached fv today qn q d stored).current_sql.isSome = true ↔
      ((detect_partition_cached fv today qn q d stored).state.needs_rerun = true ∧
        (get_version_for_date q d).isSome = true)) ∧
    (detect_partition_cached fv today qn q d stored).executed_sql_b64 =
      stored.bind (fun s => s.executed_sql_b64) := by
  cases stored with
  | none =>
    cases hv : get_version_for_date q d <;>
      simp [detect_partition_cached, hv, DriftState.needs_rerun]
  | some st =>
    cases hv : get_version_for_date q d with
    | none => simp [detect_partition_cached, hv, DriftState.needs_rerun]
    | some v =>
      by_cases hst : st.status = ExecutionStatus.Failed
      · simp [detect_partition_cached, hv, hst, DriftState.needs_rerun]
      · by_cases h1 : (fv v).schema = st.schema_checksum
        · by_cases h2 : (fv v).sql = st.sql_checksum
          · by_cases h3 : v.version = st.version
            · simp [detect_partition_cached, hv, hst, h1, h2, h3, DriftState.needs_rerun]
            · simp [detect_partition_cached, hv, hst, h1, h2, h3, DriftState.needs_rerun]
          · simp [detect_partition_cached, hv, hst, h1, h2, DriftState.needs_rerun]
        · simp [detect_partition_cached, hv, hst, h1, DriftState.needs_rerun]

/-- Counterexample to C4 as stated: with two rows for the same key, `detect`
uses the later-input row (`executed_at` 50, Failed) and not the row with the
greatest `executed_at` (100, Success); the classification differs. -/
theorem C4_counterexample :
    (fxDup1.query_name, fxDup1.partition_date) = ("q", 15) ∧
    (fxDup2.query_name, fxDup2.partition_date) = ("q", 15) ∧
    fxDup2.executed_at < fxDup1.executed_at ∧
    storedMapGet [fxDup1, fxDup2] ("q", 15) = some fxDup2 ∧
    (detect_partition_for fxFv 0 [fxDup1, fxDup2] "q" fxQuery 15).state =
      DriftState.Failed ∧
    (detect_partition_cached fxFv 0 "q" fxQuery 15 (some fxDup1)).state =
      DriftState.Current := by
  decide

/-- C4 (amended): in `detect`, when `stored_states` contains several rows
with the same (query_name, partition_date) key, the row used for
classification is the LAST one in input order (`HashMap` insertion
overwrites earlier rows), for every input. -/
theorem C4_last_input_wins (states : List PartitionState) (key : String × Nat) :
    storedMapGet states key = lastStoredFor states key := by
  simp only [storedMapGet, lastStoredFor, storedMapEntries_eq, List.find?_map]
  cases hfind : List.find?
      ((fun e => e.1 = key) ∘ fun s => ((s.query_name, s.partition_date), s))
      states.reverse with
  | none =>
    simp [hfind]
    rw [← hfind]
    congr 1
  | some s =>
    simp [hfind]
    rw [show (List.find? (fun s => decide ((s.query_name, s.partition_date) = key))
      states.reverse) = some s from hfind]

/-- Counterexample to C5 as stated: with a nonempty after-check list and a
body that fails, the after-checks are never invoked — the body error
propagates instead. -/
theorem C5_counterexample :
    fxInvariants.after ≠ [] ∧
    (execute_with_invariants true fxInvariants (.ok [fxPass])
        (.error (.Execution "boom")) (.ok [])).2 =
      [ExecEvent.beforeChecks, ExecEvent.body] ∧
    ExecEvent.afterChecks ∉ (execute_with_invariants true fxInvariants (.ok [fxPass])
        (.error (.Execution "boom")) (.ok [])).2 ∧
    (execute_with_invariants true fxInvariants (.ok [fxPass])
        (.error (.Execution "boom")) (.ok [])).1 = .error (.Execution "boom") := by
  decide

/-- C5 (amended): with invariants enabled, before-checks run first; any
before result with status Failed and severity Error aborts with
`InvariantFailed` and the body is never executed; otherwise the body
executes, and the after-checks run exactly when the body succeeds (a body
error propagates and the after-checks are skipped). -/
theorem C5_invariant_envelope (inv : InvariantsDef) (rs : List CheckResult)
    (body : Except BqDriftError Unit) (ao : Except BqDriftError (List CheckResult))
    (hb : inv.before ≠ []) :
    (rs.any (fun r => r.status = CheckStatus.Failed ∧ r.severity = Severity.Error) = true →
      execute_with_invariants true inv (.ok rs) body ao =
        (.error (.InvariantFailed "Before invariant check(s) failed with error severity"),
          [.beforeChecks])) ∧
    (rs.any (fun r => r.status = CheckStatus.Failed ∧ r.severity = Severity.Error) = false →
      ∀ e, body = .error e →
      execute_with_invariants true inv (.ok rs) body ao =
        (.error e, [.beforeChecks, .body])) ∧
    (rs.any (fun r => r.status = CheckStatus.Failed ∧ r.severity = Severity.Error) = false →
      body = .ok () → inv.after ≠ [] → ∀ ars, ao = .ok ars →
      execute_with_invariants true inv (.ok rs) body ao =
        (.ok (some ⟨rs, ars⟩), [.beforeChecks, .body, .afterChecks])) := by
  have hbe : inv.before.isEmpty = false := by
    cases h : inv.before with
    | nil => exact absurd h hb
    | cons a l => rfl
  refine ⟨fun hfail => ?_, fun hok e he => ?_, fun hok hbody ha ars hao => ?_⟩
  · have hfail' : ∃ x ∈ rs, x.status = CheckStatus.Failed ∧ x.severity = Severity.Error := by
      simpa using hfail
    simp [execute_with_invariants, resolve_invariants_def, run_before_checks, hbe, hfail']
  · have hok' : ¬ ∃ x ∈ rs, x.status = CheckStatus.Failed ∧ x.severity = Severity.Error := by
      simp only [List.any_eq_false, decide_eq_true_eq] at hok
      push_neg
      intro x hx h1
      exact fun h2 => (hok x hx) ⟨h1, h2⟩
    subst he
    simp [execute_with_invariants, resolve_invariants_def, run_before_checks, hbe, hok']
  · have hok' : ¬ ∃ x ∈ rs, x.status = CheckStatus.Failed ∧ x.severity = Severity.Error := by
      simp only [List.any_eq_false, decide_eq_true_eq] at hok
      push_neg
      intro x hx h1
      exact fun h2 => (hok x hx) ⟨h1, h2⟩
    have hae : inv.after.isEmpty = false := by
      cases h : inv.after with
      | nil => exact absurd h ha
      | cons a l => rfl
    subst hbody; subst hao
    simp [execute_with_invariants, resolve_invariants_def, run_before_checks,
      run_after_checks, hbe, hae, hok']

/-- Witness for the amended C5: a failing Error-severity before-check aborts
with `InvariantFailed` and no body event. -/
theorem C5_invariant_envelope_witness :
    execute_with_invariants true fxInvariants (.ok [fxFailErr]) (.ok ()) (.ok []) =
      (.error (.InvariantFailed "Before invariant check(s) failed with error severity"),
        [.beforeChecks]) :=
  (C5_invariant_envelope fxInvariants [fxFailErr] (.ok ()) (.ok [])
    (by decide)).1 (by decide)

/-- C6: for every backfill over the enumerated partitions, the report
satisfies |stats| + |failures| = N; each per-partition write error becomes a
`RunFailure` carrying that partition's key and the error text without
aborting the rest; and backfill returns Ok for every known query name. -/
theorem C6_backfill_totality (queries : List QueryDef)
    (write : PartitionKey → Except BqDriftError PartitionWriteStats)
    (qname : String) (fromDay toDay step : Nat) (hstep : 0 < step) (q : QueryDef)
    (hq : get_query queries qname = some q) :
    ∃ report, backfill_partitions queries write qname fromDay toDay step hstep =
        .ok report ∧
      report.stats.length + report.failures.length =
        (enumerate_day_partitions step hstep fromDay toDay).length ∧
      ∀ d e, d ∈ enumerate_day_partitions step hstep fromDay toDay →
        write (PartitionKey.day d) = .error e →
        (⟨qname, PartitionKey.day d, e.text⟩ : RunFailure) ∈ report.failures := by
  refine ⟨run_partitions write qname (enumerate_day_partitions step hstep fromDay toDay),
    ?_, ?_, ?_⟩
  · simp [backfill_partitions, hq]
  · simpa [run_partitions] using
      runPartitions_len write qname (enumerate_day_partitions step hstep fromDay toDay)
        ⟨[], []⟩
  · intro d e hd hw
    exact runPartitions_mem write qname _ ⟨[], []⟩ d e hd hw

/-- Witness for C6: a three-day backfill over `fxQuery` with one failing
day. -/
theorem C6_backfill_totality_witness :
    ∃ report, backfill_partitions [fxQuery] fxWrite "q" 0 2 1 Nat.one_pos = .ok report ∧
      report.stats.length + report.failures.length =
        (enumerate_day_partitions 1 Nat.one_pos 0 2).length ∧
      ∀ d e, d ∈ enumerate_day_partitions 1 Nat.one_pos 0 2 →
        fxWrite (PartitionKey.day d) = .error e →
        (⟨"q", PartitionKey.day d, e.text⟩ : RunFailure) ∈ report.failures :=
  C6_backfill_totality [fxQuery] fxWrite "q" 0 2 1 Nat.one_pos fxQuery (by decide)

/-- C7: resolving an extended schema applies remove (drop by name), then
modify (replace by name in place), then add (append at the end) to the
resolved base, preserving the relative order of the remaining base fields;
in particular base `{a, b}` with remove `[a]` and add `[c]` resolves to
exactly `[b, c]`. -/
theorem C7_extended_schema_order :
    (∀ (ext : ExtendedSchema) (resolved : List (Nat × Schema)) (N : Nat) (base : Schema),
      extract_version_ref ext.base = .ok N →
      hmLookup resolved N = some base →
      resolve_extended_schema ext resolved =
        .ok (Schema.from_fields
          (modifyFields (base.fields.filter (fun f => ¬ ext.remove.contains f.name))
            ext.modify ++ ext.add))) ∧
    resolve_extended_schema fxExt fxResolved = .ok ⟨[fxField "b", fxField "c"]⟩ := by
  constructor
  · intro ext resolved N base h1 h2
    simp [resolve_extended_schema, h1, h2, removeFields_eq_filter]
  · decide

/-- Witness for C7: the general shape instantiated at the `{a, b}` base with
remove `[a]`, add `[c]`. -/
theorem C7_extended_schema_order_witness :
    resolve_extended_schema fxExt fxResolved =
      .ok (Schema.from_fields
        (modifyFields
          ((⟨[fxField "a", fxField "b"]⟩ : Schema).fields.filter
            (fun f => ¬ fxExt.remove.contains f.name)) fxExt.modify ++ fxExt.add)) :=
  C7_extended_schema_order.1 fxExt fxResolved 1 ⟨[fxField "a", fxField "b"]⟩
    (by decide) (by decide)

/-- C8: version resolution proceeds in ascending (effective_from, version)
order, and a reference to a version not already resolved at that point (a
forward or unknown version) always fails the load with `InvalidVersionRef`. -/
theorem C8_forward_refs_fail :
    (∀ vs : List RawVersionDef,
      List.Pairwise (fun a b => versionOrderLE a b = true) (sortVersions vs)) ∧
    (∀ (rv : RawVersionDef) (rest : List RawVersionDef) (rs : List (Nat × Schema))
        (ri : List (Nat × InvariantsDef)) (acc : List VersionDef) (s : String) (N : Nat),
      rv.schema = SchemaRef.Reference s →
      extract_version_ref s = .ok N →
      hmLookup rs N = none →
      resolveVersionsFold (rv :: rest) rs ri acc =
        .error (.InvalidVersionRef
          ("Version " ++ toString N ++ " not found or not yet resolved"))) ∧
    (∀ (raw : RawQueryDef) (e : BqDriftError),
      resolveVersionsFold (sortVersions raw.versions) [] [] [] = .error e →
      resolve_query raw = .error e) := by
  refine ⟨?_, ?_, ?_⟩
  · intro vs
    apply List.sorted_mergeSort
    · intro a b c hab hbc
      simp only [versionOrderLE, decide_eq_true_eq] at *
      omega
    · intro a b
      simp only [versionOrderLE, Bool.or_eq_true, decide_eq_true_eq]
      omega
  · intro rv rest rs ri acc s N hs hx hl
    simp [resolveVersionsFold, resolve_schema, hs, hx, hl]
  · intro raw e h
    simp [resolve_query, h]

/-- Witness for C8: loading a query whose only version references the
unresolved version 3 fails with `InvalidVersionRef`. -/
theorem C8_forward_refs_fail_witness :
    resolve_query fxRawQueryFwd =
      .error (.InvalidVersionRef
        ("Version " ++ toString 3 ++ " not found or not yet resolved")) :=
  C8_forward_refs_fail.2.2 fxRawQueryFwd _ (by
    have hs : sortVersions fxRawQueryFwd.versions = [fxRawFwd] :=
      List.mergeSort_singleton fxRawFwd
    rw [hs]
    exact C8_forward_refs_fail.2.1 fxRawFwd [] [] [] []
      "${{ versions.3.schema }}" 3 rfl (by decide) rfl)

/-- Counterexample to C9 as stated: the env override `"0"` parses and is
used unclamped, so the concurrency bound is 0, not ≥ 1. -/
theorem C9_counterexample :
    default_parallelism (some "0") = 0 ∧ ¬ 1 ≤ default_parallelism (some "0") := by
  decide

/-- C9 (amended): `with_parallelism` clamps every argument to ≥ 1 and the
default (env unset or unparseable) is 5, but a parsed `BQDRIFT_PARALLELISM`
value is used as is, with no minimum applied. -/
theorem C9_parallelism_bounds :
    (∀ n, 1 ≤ with_parallelism n) ∧ default_parallelism none = 5 ∧
    (∀ s, parse_usize s = none → default_parallelism (some s) = 5) ∧
    (∀ s n, parse_usize s = some n → default_parallelism (some s) = n) := by
  refine ⟨fun n => ?_, rfl, fun s h => ?_, fun s n h => ?_⟩
  · exact Nat.le_max_right n 1
  · simp [default_parallelism, h]
  · simp [default_parallelism, h]

/-- Witness for the amended C9: `with_parallelism 0 ≥ 1`, an unparseable
override falls back to 5, and `"7"` parses to 7. -/
theorem C9_parallelism_bounds_witness :
    1 ≤ with_parallelism 0 ∧ default_parallelism (some "abc") = 5 ∧
      default_parallelism (some "7") = 7 :=
  ⟨C9_parallelism_bounds.1 0, C9_parallelism_bounds.2.2.1 "abc" (by decide),
    C9_parallelism_bounds.2.2.2 "7" 7 (by decide)⟩

/-- C10: once the base reference of an extended schema or extended
invariants resolves, the extension never fails; a removed name absent from
the base and a modify entry matching no base field or invariant are silently
ignored. -/
theorem C10_extension_total :
    (∀ (ext : ExtendedSchema) (m : List (Nat × Schema)) (N : Nat) (base : Schema),
      extract_version_ref ext.base = .ok N → hmLookup m N = some base →
      ∃ s, resolve_extended_schema ext m = .ok s) ∧
    (∀ (fs : List Field) (name : String) (names : List String),
      (∀ f ∈ fs, f.name ≠ name) →
      removeFields fs (name :: names) = removeFields fs names) ∧
    (∀ (fs : List Field) (m : Field),
      (∀ f ∈ fs, f.name ≠ m.name) → modifyFieldsStep fs m = fs) ∧
    (∀ (ext : ExtendedInvariants) (m : List (Nat × InvariantsDef)) (N : Nat)
        (base : InvariantsDef),
      extract_invariants_version_ref ext.base = .ok N → hmLookup m N = some base →
      ∃ d, resolve_extended_invariants ext m = .ok d) ∧
    (∀ (is_ : List InvariantDef) (name : String) (names : List String),
      (∀ i ∈ is_, i.name ≠ name) →
      removeInvs is_ (name :: names) = removeInvs is_ names) ∧
    (∀ (is_ : List InvariantDef) (m : InvariantDef),
      (∀ i ∈ is_, i.name ≠ m.name) → modifyInvsStep is_ m = is_) := by
  refine ⟨?_, ?_, ?_, ?_, ?_, ?_⟩
  · intro ext m N base h1 h2
    exact ⟨Schema.from_fields
        (modifyFields (removeFields base.fields ext.remove) ext.modify ++ ext.add),
      by simp [resolve_extended_schema, h1, h2]⟩
  · intro fs name names h
    have hstep : removeFieldsStep fs name = fs := by
      apply List.filter_eq_self.mpr
      intro f hf
      simpa using h f hf
    simp [removeFields, hstep]
  · intro fs m h
    induction fs with
    | nil => rfl
    | cons f fs ih =>
      have hf : f.name ≠ m.name := h f (by simp)
      simp [modifyFieldsStep, hf]
      exact ih (fun g hg => h g (by simp [hg]))
  · intro ext m N base h1 h2
    cases hres : resolve_extended_invariants ext m with
    | ok d => exact ⟨d, rfl⟩
    | error e =>
      exfalso
      revert hres
      simp [resolve_extended_invariants, h1, h2]
  · intro is_ name names h
    simp only [removeInvs]
    apply List.filter_congr
    intro i hi
    have := h i hi
    simp [List.contains_cons, this]
  · intro is_ m h
    induction is_ with
    | nil => rfl
    | cons i is2 ih =>
      have hf : i.name ≠ m.name := h i (by simp)
      simp [modifyInvsStep, hf]
      exact ih (fun g hg => h g (by simp [hg]))

/-- Witness for C10: absent-name deltas over concrete bases are no-ops and
both extended resolutions succeed. -/
theorem C10_extension_total_witness :
    (∃ s, resolve_extended_schema fxExt fxResolved = .ok s) ∧
    removeFields [fxField "b"] ["zzz"] = removeFields [fxField "b"] [] ∧
    modifyFieldsStep [fxField "b"] (fxField "zzz") = [fxField "b"] ∧
    (∃ d, resolve_extended_invariants fxExtInv fxResolvedInv = .ok d) ∧
    removeInvs [fxInvBefore] ["zzz"] = removeInvs [fxInvBefore] [] ∧
    modifyInvsStep [fxInvBefore] ⟨"zzz", .customSql "SELECT 3", .Error, none⟩ =
      [fxInvBefore] :=
  ⟨C10_extension_total.1 fxExt fxResolved 1 ⟨[fxField "a", fxField "b"]⟩
      (by decide) (by decide),
    C10_extension_total.2.1 [fxField "b"] "zzz" [] (by decide),
    C10_extension_total.2.2.1 [fxField "b"] (fxField "zzz") (by decide),
    C10_extension_total.2.2.2.1 fxExtInv fxResolvedInv 1 fxInvariants
      (by decide) (by decide),
    C10_extension_total.2.2.2.2.1 [fxInvBefore] "zzz" [] (by decide),
    C10_extension_total.2.2.2.2.2 [fxInvBefore] ⟨"zzz", .customSql "SELECT 3", .Error, none⟩
      (by decide)⟩

end BqDrift
